import Mathlib

/-!
Verification of the midi-router rule-based routing core.

Shallow embedding of `src/midi.rs`, `src/routing.rs` and
`src/parser/parser.rs`.  Machine integers are modelled as `Nat` (for `u8`
and `usize`) and `Int` (for `i16`); `i16` arithmetic that may overflow is
modelled with explicit two's-complement wrap-around (`wrap16`, release-mode
Rust semantics).  Unchecked slice indexing is modelled by `List.get?` inside
the `Option` monad, `none` standing for an index-out-of-bounds abort.
The regex engine (an external crate) is abstracted as a compile function
`String → Option (String → Bool)` passed to the parser: `none` models a
pattern that fails to compile, `some p` a compiled matcher.
-/

namespace MidiRouter

/-! ## midi.rs : events and the raw decoder -/

inductive MidiEvent
  | NoteOff (channel note velocity : Nat)
  | NoteOn (channel note velocity : Nat)
  | PolyphonicAftertouch (channel note pressure : Nat)
  | ControlChange (channel control_no value : Nat)
  | ProgramChange (channel program : Nat)
  | ChannelAftertouch (channel pressure : Nat)
  | PitchBendChange (channel : Nat) (value : Int)
  | SystemExclusive
  | MidiTimeCodeQtrFrame
  | SongPositionPointer
  | SongSelect (song_num : Nat)
  | TuneRequest
  | EndOfSysEx
  | TimingClock
  | Start
  | Continue
  | Stop
  | ActiveSensing
  | SystemReset
  | Undefined
deriving DecidableEq, Repr

/-- Canonical kind names, from the `strum(serialize = ...)` attributes. -/
def kindName : MidiEvent → String
  | .NoteOff _ _ _ => "note-off"
  | .NoteOn _ _ _ => "note-on"
  | .PolyphonicAftertouch _ _ _ => "polyphonic-aftertouch"
  | .ControlChange _ _ _ => "control-change"
  | .ProgramChange _ _ => "program-change"
  | .ChannelAftertouch _ _ => "channel-aftertouch"
  | .PitchBendChange _ _ => "pitch-bend-change"
  | .SystemExclusive => "system-exclusive"
  | .MidiTimeCodeQtrFrame => "midi-time-code-qtr-frame"
  | .SongPositionPointer => "song-position-pointer"
  | .SongSelect _ => "song-select"
  | .TuneRequest => "tone-request"
  | .EndOfSysEx => "end-of-sys-ex"
  | .TimingClock => "timing-clock"
  | .Start => "start"
  | .Continue => "continue"
  | .Stop => "stop"
  | .ActiveSensing => "active-sensing"
  | .SystemReset => "system-reset"
  | .Undefined => "undefined"

def MIN_PITCHWHEEL : Int := -8192

/-- Two's-complement wrap-around into the `i16` range. -/
def wrap16 (n : Int) : Int := (n + 32768) % 65536 - 32768

inductive DecodeError
  | UnknownEventKind (nibble : Nat)
deriving DecidableEq, Repr

/-- Embedding of `decode_raw_midi`.  The outer `Option` models the panics of
the unguarded `bytes[0]` / `bytes[1]` / `bytes[2]` indexing; the Rust `match`
over byte literals is rendered as an if-chain.  The system-message table is
matched against `channel = (bytes[0] & 0x0f) + 1`, exactly as in the source. -/
def decode_raw_midi (bytes : List Nat) : Option (Except DecodeError MidiEvent) := do
  let b0 ← bytes.get? 0
  let event_type := b0 / 16
  let channel := b0 % 16 + 1
  if event_type = 0x8 then
    let b1 ← bytes.get? 1
    let b2 ← bytes.get? 2
    pure (.ok (.NoteOff channel b1 b2))
  else if event_type = 0x9 then
    let b1 ← bytes.get? 1
    let b2 ← bytes.get? 2
    pure (.ok (.NoteOn channel b1 b2))
  else if event_type = 0xa then
    let b1 ← bytes.get? 1
    let b2 ← bytes.get? 2
    pure (.ok (.PolyphonicAftertouch channel b1 b2))
  else if event_type = 0xb then
    let b1 ← bytes.get? 1
    let b2 ← bytes.get? 2
    pure (.ok (.ControlChange channel b1 b2))
  else if event_type = 0xc then
    let b1 ← bytes.get? 1
    pure (.ok (.ProgramChange channel b1))
  else if event_type = 0xd then
    let b1 ← bytes.get? 1
    pure (.ok (.ChannelAftertouch channel b1))
  else if event_type = 0xe then
    let b1 ← bytes.get? 1
    let b2 ← bytes.get? 2
    pure (.ok (.PitchBendChange channel
      (wrap16 (wrap16 (wrap16 ((b2 : Int) * 128) + (b1 : Int)) + MIN_PITCHWHEEL))))
  else if event_type = 0xf then
    if channel = 0x0 then pure (.ok .SystemExclusive)
    else if channel = 0x1 then pure (.ok .MidiTimeCodeQtrFrame)
    else if channel = 0x2 then pure (.ok .SongPositionPointer)
    else if channel = 0x3 then
      let b1 ← bytes.get? 1
      pure (.ok (.SongSelect b1))
    else if channel = 0x6 then pure (.ok .TuneRequest)
    else if channel = 0x7 then pure (.ok .EndOfSysEx)
    else if channel = 0x8 then pure (.ok .TimingClock)
    else if channel = 0xa then pure (.ok .Start)
    else if channel = 0xb then pure (.ok .Continue)
    else if channel = 0xc then pure (.ok .Stop)
    else if channel = 0xe then pure (.ok .ActiveSensing)
    else if channel = 0xf then pure (.ok .SystemReset)
    else pure (.ok .Undefined)
  else
    pure (.error (.UnknownEventKind event_type))

/-! ## routing.rs : ranges, conditions, rules, routing table -/

/-- `NumericRange<T>`; the Rust field `end` is spelled `stop`. -/
structure NumericRange (α : Type) where
  start : α
  stop : α
deriving DecidableEq, Repr

def NumericRange.is_within {α : Type} [LinearOrder α] (r : NumericRange α) (v : α) : Bool :=
  decide (r.start ≤ v) && decide (v ≤ r.stop)

/-- `Condition`; `event_pattern` holds a compiled matcher (abstracting `Regex`). -/
structure Condition where
  event_pattern : Option (String → Bool)
  channel_pattern : Option (NumericRange Nat)
  value_pattern : Option (NumericRange Int)
  velocity_pattern : Option (NumericRange Nat)
  controller_pattern : Option (NumericRange Nat)

def Condition.match_range {α : Type} [LinearOrder α]
    (range : Option (NumericRange α)) (value : α) : Bool :=
  (range.map (fun c => c.is_within value)).getD true

def Condition.match_channel (c : Condition) (channel : Nat) : Bool :=
  Condition.match_range c.channel_pattern channel

def Condition.match_value (c : Condition) (value : Int) : Bool :=
  Condition.match_range c.value_pattern value

def Condition.match_value_u8 (c : Condition) (value : Nat) : Bool :=
  c.match_value (value : Int)

def Condition.match_velocity (c : Condition) (velocity : Nat) : Bool :=
  Condition.match_range c.velocity_pattern velocity

def Condition.match_control_no (c : Condition) (controller : Nat) : Bool :=
  Condition.match_range c.controller_pattern controller

def Condition.matches (c : Condition) (midi_event : MidiEvent) : Bool :=
  if !((c.event_pattern.map (fun p => p (kindName midi_event))).getD true) then
    false
  else
    match midi_event with
    | .NoteOff channel note velocity
    | .NoteOn channel note velocity
    | .PolyphonicAftertouch channel note velocity =>
        c.match_velocity velocity && c.match_value_u8 note && c.match_channel channel
    | .ControlChange channel control_no value =>
        c.match_channel channel && c.match_control_no control_no && c.match_value_u8 value
    | .ProgramChange channel value
    | .ChannelAftertouch channel value =>
        c.match_channel channel && c.match_value_u8 value
    | .PitchBendChange channel value =>
        c.match_channel channel && c.match_value value
    | .SongSelect song_num =>
        c.match_value_u8 song_num
    | _ => true

inductive Action
  | ForwardTo (output_port : String)
deriving DecidableEq, Repr

def Action.port : Action → String
  | .ForwardTo p => p

structure Rule where
  condition : Condition
  actions : List Action

structure RoutingTable where
  rules : List Rule

def get_port_from_action (action : Action) : Option String :=
  match action with
  | .ForwardTo output_port => some output_port

def get_ports_from_actions : List Action → List String
  | [] => []
  | action :: rest =>
    match get_port_from_action action with
    | some p => p :: get_ports_from_actions rest
    | none => get_ports_from_actions rest

def RoutingTable.get_output_ports (rt : RoutingTable) (midi_event : MidiEvent) : List String :=
  go rt.rules
where
  go : List Rule → List String
    | [] => []
    | rule :: rest =>
      (if rule.condition.matches midi_event then get_ports_from_actions rule.actions else [])
        ++ go rest

/-! ## parser/parser.rs : field grammar (the `FIELD_PAT` regex and `parse_value_field`) -/

inductive FieldType
  | ch
  | vel
  | ctrl
deriving DecidableEq, Repr

/-- The named capture groups of `FIELD_PAT`.  Numeric captures hold the
mathematical value denoted by the captured `-?\d+` digit string. -/
structure FieldCaptures where
  ftype : Option FieldType := none
  wildcard : Bool := false
  startCap : Option Int := none
  endCap : Option Int := none
  lowerCap : Option Int := none
  upperCap : Option Int := none
  exactCap : Option Int := none
deriving DecidableEq, Repr

def digitsVal (ds : List Char) : Nat :=
  ds.foldl (fun a c => a * 10 + (c.toNat - '0'.toNat)) 0

/-- Recognizer for `-?\d+` (greedy), returning the denoted integer and the
remaining input. -/
def parseSignedNum (cs : List Char) : Option (Int × List Char) :=
  let (neg, cs1) :=
    match cs with
    | '-' :: rest => (true, rest)
    | _ => (false, cs)
  let ds := cs1.takeWhile Char.isDigit
  let rest := cs1.dropWhile Char.isDigit
  if ds = [] then none
  else some ((if neg then -(digitsVal ds : Int) else (digitsVal ds : Int)), rest)

def matchBodyWild (cs : List Char) : Option FieldCaptures :=
  if cs = ['*'] then some { wildcard := true } else none

def matchBodyStartEnd (cs : List Char) : Option FieldCaptures := do
  let (s, r1) ← parseSignedNum cs
  match r1 with
  | '-' :: r2 =>
    let (e, r3) ← parseSignedNum r2
    if r3 = [] then some { startCap := some s, endCap := some e } else none
  | _ => none

def matchBodyGt (cs : List Char) : Option FieldCaptures :=
  match cs with
  | '>' :: r => do
    let (n, r2) ← parseSignedNum r
    if r2 = [] then some { lowerCap := some n } else none
  | _ => none

def matchBodyLt (cs : List Char) : Option FieldCaptures :=
  match cs with
  | '<' :: r => do
    let (n, r2) ← parseSignedNum r
    if r2 = [] then some { upperCap := some n } else none
  | _ => none

def matchBodyExact (cs : List Char) : Option FieldCaptures := do
  let (n, r) ← parseSignedNum cs
  if r = [] then some { exactCap := some n } else none

/-- The anchored alternation of `FIELD_PAT` after the optional type prefix,
tried in the regex's leftmost-first order. -/
def matchBody (cs : List Char) : Option FieldCaptures :=
  matchBodyWild cs <|> matchBodyStartEnd cs <|> matchBodyGt cs <|>
    matchBodyLt cs <|> matchBodyExact cs

/-- Case-insensitive literal prefix stripping (`FIELD_PAT` is built with
`case_insensitive(true)`). -/
def stripPrefixCI : List Char → List Char → Option (List Char)
  | [], cs => some cs
  | p :: ps, c :: cs => if c.toLower = p then stripPrefixCI ps cs else none
  | _ :: _, [] => none

/-- Full-match captures of `FIELD_PAT` against a token.  The optional greedy
group `(ch|vel|ctrl)?` is tried with each alternative first and without the
prefix last, as the backtracking engine does. -/
def fieldPatCaptures (s : String) : Option FieldCaptures :=
  let cs := s.data
  let withPrefix := fun (p : List Char) (t : FieldType) =>
    (stripPrefixCI p cs).bind fun rest =>
      (matchBody rest).map fun c => { c with ftype := some t }
  withPrefix ['c', 'h'] .ch <|> withPrefix ['v', 'e', 'l'] .vel <|>
    withPrefix ['c', 't', 'r', 'l'] .ctrl <|> matchBody cs

inductive FieldErrorKind
  | InvalidFormat
  | NumberOutOfRange (min max : Int)
  | IntParseError
  | RegexError
deriving DecidableEq, Repr

structure FieldParseError where
  field_id : Nat
  content : String
  reason : FieldErrorKind
deriving DecidableEq, Repr

inductive Field
  | NameField (name_pattern : String → Bool)
  | ValueField (start stop : Int)
  | ChannelField (start stop : Nat)
  | VelocityField (start stop : Nat)
  | ControlNoField (start stop : Nat)

/-- `Match::as_str().parse::<i16>()`: the captured digit string parses iff its
value fits in `i16`. -/
def matchToI16 (field_id : Nat) (content : String) (n : Int) :
    Except FieldParseError Int :=
  if -32768 ≤ n ∧ n ≤ 32767 then .ok n
  else .error ⟨field_id, content, .IntParseError⟩

/-- `get_match_as_i16` composed with `switch_option_and_result`. -/
def getMatchAsI16 (field_id : Nat) (content : String) (cap : Option Int) :
    Except FieldParseError (Option Int) :=
  match cap with
  | none => .ok none
  | some n => (matchToI16 field_id content n).map some

def parse_value_field (field_id : Nat) (content : String) (c : FieldCaptures) :
    Except FieldParseError Field := do
  let default_start : Int := if c.ftype = none then -32768 else 0
  let default_end : Int := if c.ftype = none then 32767 else 255
  let startM ← getMatchAsI16 field_id content c.startCap
  let endM ← getMatchAsI16 field_id content c.endCap
  let lowerM ← getMatchAsI16 field_id content c.lowerCap
  let upperM ← getMatchAsI16 field_id content c.upperCap
  let exactM ← getMatchAsI16 field_id content c.exactCap
  let start0 := startM.getD default_start
  let end0 := endM.getD default_end
  let lower_bound := (lowerM.map (fun b => wrap16 (b + 1))).getD default_start
  let upper_bound := (upperM.map (fun b => wrap16 (b - 1))).getD default_end
  let start := exactM.getD (max start0 lower_bound)
  let stop := exactM.getD (min end0 upper_bound)
  if c.ftype ≠ none ∧ ¬(0 ≤ start ∧ start ≤ stop ∧ stop ≤ 255) then
    .error ⟨field_id, content, .NumberOutOfRange 0 255⟩
  else
    match c.ftype with
    | some .ch => .ok (.ChannelField start.toNat stop.toNat)
    | some .vel => .ok (.VelocityField start.toNat stop.toNat)
    | some .ctrl => .ok (.ControlNoField start.toNat stop.toNat)
    | none => .ok (.ValueField start stop)

/-- A regex compiler abstracting `Regex::new`. -/
def RegexCompile : Type := String → Option (String → Bool)

def parse_name_pattern_field (compile : RegexCompile) (field_id : Nat)
    (value : String) : Except FieldParseError Field :=
  match compile value with
  | some name_pattern => .ok (.NameField name_pattern)
  | none => .error ⟨field_id, value, .RegexError⟩

def parse_field_lhs (compile : RegexCompile) (field_id : Nat) (value : String) :
    Except FieldParseError Field :=
  if field_id = 0 then
    parse_name_pattern_field compile field_id value
  else
    match fieldPatCaptures value with
    | some captures => parse_value_field field_id value captures
    | none => .error ⟨field_id, value, .InvalidFormat⟩

/-! ## parser/parser.rs : the rule parser state machine and the config loader -/

structure ConditionBuilder where
  event_pattern : Option (String → Bool) := none
  channel_pattern : Option (NumericRange Nat) := none
  value_pattern : Option (NumericRange Int) := none
  velocity_pattern : Option (NumericRange Nat) := none
  control_no_pattern : Option (NumericRange Nat) := none

def ConditionBuilder.build (cb : ConditionBuilder) : Condition :=
  { event_pattern := cb.event_pattern
    channel_pattern := cb.channel_pattern
    value_pattern := cb.value_pattern
    velocity_pattern := cb.velocity_pattern
    controller_pattern := cb.control_no_pattern }

/-- The slot assignment performed by `RuleParser::parse_lhs` on a parsed field. -/
def applyField (cb : ConditionBuilder) : Field → ConditionBuilder
  | .NameField p => { cb with event_pattern := some p }
  | .ValueField a b => { cb with value_pattern := some ⟨a, b⟩ }
  | .ChannelField a b => { cb with channel_pattern := some ⟨a, b⟩ }
  | .VelocityField a b => { cb with velocity_pattern := some ⟨a, b⟩ }
  | .ControlNoField a b => { cb with control_no_pattern := some ⟨a, b⟩ }

inductive Side
  | lhs
  | rhs
deriving DecidableEq

structure ParserSt where
  cond : ConditionBuilder
  errors : List FieldParseError
  outputs : List String
  state : Side

def FORWARD_SYMBOL : String := "=>"

/-- One iteration of the token loop in `RuleParser::parse`: the separator
check comes first on every token, then the state dispatch. -/
def parseStep (compile : RegexCompile) (st : ParserSt) (tok : Nat × String) :
    ParserSt :=
  if tok.2 = FORWARD_SYMBOL then { st with state := .rhs }
  else
    match st.state with
    | .lhs =>
      match parse_field_lhs compile tok.1 tok.2 with
      | .ok f => { st with cond := applyField st.cond f }
      | .error e => { st with errors := st.errors ++ [e] }
    | .rhs => { st with outputs := st.outputs ++ [tok.2] }

def runTokens (compile : RegexCompile) : ParserSt → List (Nat × String) → ParserSt
  | st, [] => st
  | st, t :: ts => runTokens compile (parseStep compile st t) ts

structure RuleParseError where
  line_no : Nat
  invalid_fields : List FieldParseError
deriving DecidableEq, Repr

/-- `str::trim` on the character list. -/
def trimStr (s : String) : String :=
  String.mk (((s.data.dropWhile Char.isWhitespace).reverse.dropWhile
    Char.isWhitespace).reverse)

/-- `str::split_whitespace`: maximal runs of non-whitespace characters. -/
def splitWhitespace (s : String) : List String :=
  ((s.data.foldr
      (fun c acc =>
        if c.isWhitespace then [] :: acc
        else
          match acc with
          | [] => [[c]]
          | w :: ws => (c :: w) :: ws)
      ([] : List (List Char))).filter (fun w => w ≠ [])).map String.mk

/-- `line.trim().split_whitespace().enumerate()`: the token stream of one
line, each token paired with its 0-based index. -/
def tokensOf (line : String) : List (Nat × String) :=
  (splitWhitespace (trimStr line)).enum

def RuleParser.parse (compile : RegexCompile) (line_no : Nat) (line : String) :
    Except RuleParseError Rule :=
  let st := runTokens compile ⟨{}, [], [], .lhs⟩ (tokensOf line)
  if st.errors = [] then
    .ok ⟨st.cond.build, st.outputs.map Action.ForwardTo⟩
  else
    .error ⟨line_no, st.errors⟩

structure RuleConfigError where
  errors : List RuleParseError
deriving DecidableEq, Repr

/-- The line loop of `load_rules_from_file` (file I/O abstracted away: the
file content arrives as its list of lines). -/
def loadLines (compile : RegexCompile) :
    List (Nat × String) → List Rule × List RuleParseError
  | [] => ([], [])
  | (i, l) :: rest =>
    let t := trimStr l
    if t = "" then loadLines compile rest
    else
      let (rs, es) := loadLines compile rest
      match RuleParser.parse compile i t with
      | .ok rule => (rule :: rs, es)
      | .error e => (rs, e :: es)

def load_rules (compile : RegexCompile) (lines : List String) :
    Except RuleConfigError (List Rule) :=
  let (rules, errors) := loadLines compile lines.enum
  if errors = [] then .ok rules else .error ⟨errors⟩

/-! ## Spec-side definitions

These follow the specification's words (field applicability per event kind,
aggregation of per-line outcomes) and are compared with the source-derived
definitions above. -/

/-- Spec: the one field of an event the channel predicate applies to. -/
def channelField : MidiEvent → Option Nat
  | .NoteOff channel _ _ => some channel
  | .NoteOn channel _ _ => some channel
  | .PolyphonicAftertouch channel _ _ => some channel
  | .ControlChange channel _ _ => some channel
  | .ProgramChange channel _ => some channel
  | .ChannelAftertouch channel _ => some channel
  | .PitchBendChange channel _ => some channel
  | _ => none

/-- Spec: the one field of an event the velocity predicate applies to. -/
def velocityField : MidiEvent → Option Nat
  | .NoteOff _ _ velocity => some velocity
  | .NoteOn _ _ velocity => some velocity
  | .PolyphonicAftertouch _ _ pressure => some pressure
  | _ => none

/-- Spec: the one field of an event the controller-number predicate applies to. -/
def controllerField : MidiEvent → Option Nat
  | .ControlChange _ control_no _ => some control_no
  | _ => none

/-- Spec: the one field of an event the generic value predicate applies to. -/
def valueField : MidiEvent → Option Int
  | .NoteOff _ note _ => some note
  | .NoteOn _ note _ => some note
  | .PolyphonicAftertouch _ note _ => some note
  | .ControlChange _ _ value => some value
  | .ProgramChange _ program => some program
  | .ChannelAftertouch _ pressure => some pressure
  | .PitchBendChange _ value => some value
  | .SongSelect song_num => some song_num
  | _ => none

/-- The name-pattern predicate, vacuously true when absent. -/
def patternOk (c : Condition) (name : String) : Bool :=
  (c.event_pattern.map (fun p => p name)).getD true

/-- A numeric predicate holds on the field it applies to; a predicate with no
applicable field on the event's kind is ignored (treated as matching). -/
def checkNat (range : Option (NumericRange Nat)) (field : Option Nat) : Bool :=
  match field with
  | none => true
  | some v => (range.map (fun r => r.is_within v)).getD true

def checkInt (range : Option (NumericRange Int)) (field : Option Int) : Bool :=
  match field with
  | none => true
  | some v => (range.map (fun r => r.is_within v)).getD true

/-- Spec-side condition matching: name pattern AND every applicable numeric
predicate on its field. -/
def matchesSpec (c : Condition) (e : MidiEvent) : Bool :=
  patternOk c (kindName e)
    && checkNat c.channel_pattern (channelField e)
    && checkNat c.velocity_pattern (velocityField e)
    && checkNat c.controller_pattern (controllerField e)
    && checkInt c.value_pattern (valueField e)

/-! ## Claim C1 -/

/-- C1: `get_output_ports` returns exactly the concatenation, in rule
declaration order and, within a rule, in action order, of the output-port
names of every rule whose condition matches the event; duplicates are
preserved and a matching rule does not stop later rules from contributing. -/
theorem get_output_ports_is_concat_of_matching_rules
    (rt : RoutingTable) (e : MidiEvent) :
    rt.get_output_ports e =
      ((rt.rules.filter (fun r => r.condition.matches e)).map
        (fun r => r.actions.map Action.port)).flatten := by
  have hports : ∀ as : List Action, get_ports_from_actions as = as.map Action.port := by
    intro as
    induction as with
    | nil => rfl
    | cons a rest ih =>
      cases a
      simp [get_ports_from_actions, get_port_from_action, ih, Action.port]
  show RoutingTable.get_output_ports.go e rt.rules = _
  induction rt.rules with
  | nil => rfl
  | cons r rest ih =>
    by_cases h : r.condition.matches e <;>
      simp [RoutingTable.get_output_ports.go, h, ih, hports]

/-! ## Claim C2 -/

/-- C2: `Condition::matches` returns true iff the name-pattern predicate (if
present) matches the event's canonical kind name and every numeric predicate
applicable to the event's kind holds on the corresponding field; predicates
with no applicable field are ignored. -/
theorem matches_iff_applicable_predicates (c : Condition) (e : MidiEvent) :
    c.matches e = matchesSpec c e := by
  have hif : ∀ b x : Bool, (if (!b) = true then false else x) = (b && x) := by
    intro b x
    cases b <;> simp
  cases e <;>
    simp [Condition.matches, matchesSpec, patternOk, checkNat, checkInt,
      channelField, velocityField, controllerField, valueField, kindName, hif,
      Condition.match_velocity, Condition.match_value_u8, Condition.match_value,
      Condition.match_channel, Condition.match_control_no, Condition.match_range,
      Bool.and_assoc, Bool.and_comm, Bool.and_left_comm]

/-! ## Claim C10 -/

/-- C10: a `SongSelect` event is not vacuously matched: `matches` checks the
value predicate against `song_num` while the channel, velocity and controller
predicates are ignored for this kind. -/
theorem matches_song_select (c : Condition) (n : Nat) :
    c.matches (.SongSelect n) =
      (patternOk c "song-select"
        && (c.value_pattern.map (fun r => r.is_within (n : Int))).getD true) := by
  have hif : ∀ b x : Bool, (if (!b) = true then false else x) = (b && x) := by
    intro b x
    cases b <;> simp
  simp [Condition.matches, patternOk, kindName, hif,
    Condition.match_value_u8, Condition.match_value, Condition.match_range]

/-! ## Claim C3 -/

/-- C3: a 3-byte message with status nibble 0xE decodes to `PitchBendChange`
with channel = low nibble of byte 0 plus 1 and value = (byte2 << 7) + byte1
- 8192. -/
theorem decode_pitch_bend (b0 b1 b2 : Nat)
    (htype : b0 / 16 = 0xe) (hb1 : b1 < 256) (hb2 : b2 < 256) :
    decode_raw_midi [b0, b1, b2] =
      some (.ok (.PitchBendChange (b0 % 16 + 1)
        ((b2 : Int) * 128 + (b1 : Int) - 8192))) := by
  have h8 : ¬(b0 / 16 = 0x8) := by omega
  have h9 : ¬(b0 / 16 = 0x9) := by omega
  have ha : ¬(b0 / 16 = 0xa) := by omega
  have hb : ¬(b0 / 16 = 0xb) := by omega
  have hc : ¬(b0 / 16 = 0xc) := by omega
  have hd : ¬(b0 / 16 = 0xd) := by omega
  simp only [decode_raw_midi, List.get?, Option.bind_eq_bind, Option.some_bind,
    h8, h9, ha, hb, hc, hd, htype, if_false, if_true, ite_true, ite_false]
  have hval : wrap16 (wrap16 (wrap16 ((b2 : Int) * 128) + (b1 : Int)) + MIN_PITCHWHEEL)
      = (b2 : Int) * 128 + (b1 : Int) - 8192 := by
    have hb1i : (b1 : Int) < 256 := by exact_mod_cast hb1
    have hb2i : (b2 : Int) < 256 := by exact_mod_cast hb2
    have hb1n : (0 : Int) ≤ (b1 : Int) := Int.ofNat_nonneg b1
    have hb2n : (0 : Int) ≤ (b2 : Int) := Int.ofNat_nonneg b2
    unfold wrap16 MIN_PITCHWHEEL
    omega
  rw [hval]
  norm_num

/-! ## Claim C4 -/

/-- C4 (code bug): `decode_raw_midi` matches the 0xF system sub-kind table
against `channel = (byte0 & 0x0f) + 1` instead of the raw low nibble, so the
whole table is shifted by one: status 0xF5 (claimed `Undefined`) decodes to
`TuneRequest`, 0xF9 (claimed `Undefined`) to `Start`, 0xFD (claimed
`Undefined`) to `ActiveSensing`, and 0xF8 (timing clock in the MIDI standard
the source cites) to `Undefined`. -/
theorem decode_system_table_shifted :
    decode_raw_midi [0xf5, 0, 0] = some (.ok .TuneRequest)
      ∧ decode_raw_midi [0xf9, 0, 0] = some (.ok .Start)
      ∧ decode_raw_midi [0xfd, 0, 0] = some (.ok .ActiveSensing)
      ∧ decode_raw_midi [0xf8, 0, 0] = some (.ok .Undefined)
      ∧ decode_raw_midi [0xf7, 0, 0] = some (.ok .TimingClock) := by
  refine ⟨rfl, rfl, rfl, rfl, rfl⟩

/-! ## Claim C9 -/

/-- C9: `decode_raw_midi` has no length guard: with at least 3 bytes it
always returns (no out-of-bounds access), but it aborts on an empty slice
and on a 1-byte note-on message. -/
theorem decode_needs_three_bytes :
    (∀ bytes : List Nat, 3 ≤ bytes.length → (decode_raw_midi bytes).isSome = true)
      ∧ decode_raw_midi [] = none
      ∧ decode_raw_midi [0x90] = none := by
  refine ⟨?_, rfl, rfl⟩
  intro bytes hlen
  match bytes, hlen with
  | b0 :: b1 :: b2 :: rest, _ =>
    show (decode_raw_midi (b0 :: b1 :: b2 :: rest)).isSome = true
    unfold decode_raw_midi
    simp only [List.get?_cons_zero, List.get?_cons_succ, Option.pure_def,
      Option.bind_eq_bind, Option.some_bind, apply_ite Option.isSome,
      Option.isSome_some, ite_self]

/-- Witness for C9 at the concrete 3-byte note-on message `[0x90, 0, 0]`. -/
theorem decode_needs_three_bytes_witness :
    (decode_raw_midi [0x90, 0, 0]).isSome = true :=
  decode_needs_three_bytes.1 [0x90, 0, 0] (by decide)

/-- Witness for C3 at the four pitch-bend examples from the specification. -/
theorem decode_pitch_bend_witness :
    decode_raw_midi [0xe6, 66, 123] = some (.ok (.PitchBendChange 7 7618))
      ∧ decode_raw_midi [0xe6, 127, 127] = some (.ok (.PitchBendChange 7 8191))
      ∧ decode_raw_midi [0xe6, 0, 0] = some (.ok (.PitchBendChange 7 (-8192)))
      ∧ decode_raw_midi [0xe6, 0, 64] = some (.ok (.PitchBendChange 7 0)) :=
  ⟨(decode_pitch_bend 0xe6 66 123 (by decide) (by decide) (by decide)).trans (by rfl),
   (decode_pitch_bend 0xe6 127 127 (by decide) (by decide) (by decide)).trans (by rfl),
   (decode_pitch_bend 0xe6 0 0 (by decide) (by decide) (by decide)).trans (by rfl),
   (decode_pitch_bend 0xe6 0 64 (by decide) (by decide) (by decide)).trans (by rfl)⟩

/-! ## Claims C5 and C6 : the field grammar's bound handling -/

theorem exceptOkBind {ε α β : Type} (a : α) (f : α → Except ε β) :
    (Except.ok a : Except ε α) >>= f = f a := rfl

def mkTyped : FieldType → Nat → Nat → Field
  | .ch => Field.ChannelField
  | .vel => Field.VelocityField
  | .ctrl => Field.ControlNoField

/-- Captures of a `>LOWER` token (with optional type prefix). -/
def lowerCaps (t : Option FieldType) (L : Int) : FieldCaptures :=
  { ftype := t, lowerCap := some L }

/-- Captures of a `<UPPER` token (with optional type prefix). -/
def upperCaps (t : Option FieldType) (U : Int) : FieldCaptures :=
  { ftype := t, upperCap := some U }

/-- Captures of an exact-value token (with optional type prefix). -/
def exactCaps (t : Option FieldType) (N : Int) : FieldCaptures :=
  { ftype := t, exactCap := some N }

/-- Captures of a `START-END` token (with optional type prefix). -/
def rangeCaps (t : Option FieldType) (A B : Int) : FieldCaptures :=
  { ftype := t, startCap := some A, endCap := some B }

/-- Captures of a `*` token (with optional type prefix). -/
def wildCaps (t : Option FieldType) : FieldCaptures :=
  { ftype := t, wildcard := true }

/-- A regex compiler instance used for concrete runs: the pattern matches
exactly its own literal text. -/
def compileLiteral : RegexCompile := fun p => some (fun s => s == p)

/-- C5 counterexample: the typed exclusive-bound token `vel<300` parses to
the clamped range [0, 255], not to the claimed adjusted interval [0, 299]. -/
theorem parse_exclusive_bound_not_literal_interval :
    parse_field_lhs compileLiteral 1 "vel<300" = .ok (.VelocityField 0 255)
      ∧ (Except.ok (Field.VelocityField 0 255) : Except FieldParseError Field)
          ≠ .ok (.VelocityField 0 299) := by
  refine ⟨rfl, ?_⟩
  simp

/-- C5 (amended): `>LOWER` yields [max(default_start, LOWER+1), default_end]
and `<UPPER` yields [default_start, min(default_end, UPPER-1)] — the
exclusive bound is adjusted by ±1 and then clamped into the type's default
range; a typed token still fails the 0–255 check when the adjusted lower
bound exceeds 255 (resp. when the adjusted upper bound is negative).  Stated
away from the i16 extremes, where the ±1 adjustment would wrap. -/
theorem parse_exclusive_bounds_clamped (fid : Nat) (content : String)
    (t : Option FieldType) (L U : Int)
    (hL1 : -32768 ≤ L) (hL2 : L < 32767) (hU1 : -32768 < U) (hU2 : U ≤ 32767) :
    (parse_value_field fid content (lowerCaps t L) =
      (match t with
      | none => .ok (.ValueField (L + 1) 32767)
      | some ft =>
        if L + 1 ≤ 255 then .ok (mkTyped ft (max 0 (L + 1)).toNat 255)
        else .error ⟨fid, content, .NumberOutOfRange 0 255⟩))
    ∧ (parse_value_field fid content (upperCaps t U) =
      (match t with
      | none => .ok (.ValueField (-32768) (U - 1))
      | some ft =>
        if 1 ≤ U then .ok (mkTyped ft 0 (min 255 (U - 1)).toNat)
        else .error ⟨fid, content, .NumberOutOfRange 0 255⟩)) := by
  have hL3 : L ≤ 32767 := le_of_lt hL2
  have hU3 : -32768 ≤ U := le_of_lt hU1
  constructor
  · cases t with
    | none =>
      simp [parse_value_field, lowerCaps, getMatchAsI16, matchToI16,
        exceptOkBind, Except.map, wrap16, hL1, hL3]
      omega
    | some ft =>
      simp [parse_value_field, lowerCaps, getMatchAsI16, matchToI16,
        exceptOkBind, Except.map, wrap16, hL1, hL3]
      split_ifs <;> cases ft <;>
        (try simp only [mkTyped, Except.ok.injEq, Field.ChannelField.injEq,
          Field.VelocityField.injEq, Field.ControlNoField.injEq, and_true, true_and]) <;>
        first
          | rfl
          | omega
  · cases t with
    | none =>
      simp [parse_value_field, upperCaps, getMatchAsI16, matchToI16,
        exceptOkBind, Except.map, wrap16, hU3, hU2]
      omega
    | some ft =>
      simp [parse_value_field, upperCaps, getMatchAsI16, matchToI16,
        exceptOkBind, Except.map, wrap16, hU3, hU2]
      split_ifs <;> cases ft <;>
        (try simp only [mkTyped, Except.ok.injEq, Field.ChannelField.injEq,
          Field.VelocityField.injEq, Field.ControlNoField.injEq, and_true, true_and]) <;>
        first
          | rfl
          | omega

/-- Witness for C5 at the claim's own examples: untyped `<300` and typed
`ctrl>5` (where no clamping takes place). -/
theorem parse_exclusive_bounds_clamped_witness :
    parse_value_field 1 "<300" (upperCaps none 300) = .ok (.ValueField (-32768) 299)
      ∧ parse_value_field 1 "ctrl>5" (lowerCaps (some .ctrl) 5) = .ok (.ControlNoField 6 255)
      ∧ fieldPatCaptures "<300" = some (upperCaps none 300)
      ∧ fieldPatCaptures "ctrl>5" = some (lowerCaps (some .ctrl) 5) :=
  ⟨((parse_exclusive_bounds_clamped 1 "<300" none 5 300 (by decide) (by decide)
      (by decide) (by decide)).2).trans (by rfl),
   ((parse_exclusive_bounds_clamped 1 "ctrl>5" (some .ctrl) 5 300 (by decide) (by decide)
      (by decide) (by decide)).1).trans (by rfl),
   by decide, by decide⟩

/-- C6 counterexample: `ch<300` parses successfully to the clamped range
[0, 255] although its exclusive-bound-adjusted upper bound 299 violates
`end ≤ 255`, where the claim demands an out-of-range failure. -/
theorem typed_bounds_check_counterexample :
    parse_field_lhs compileLiteral 1 "ch<300" = .ok (.ChannelField 0 255)
      ∧ ¬((299 : Int) ≤ 255) := by
  refine ⟨rfl, by decide⟩

/-- C6 (amended): the 0–255 validation of typed fields applies to the
computed bounds after clamping into the typed default range [0, 255]
(exact values are not clamped): an exact `N` fails iff ¬(0 ≤ N ≤ 255), a
literal range `A-B` fails iff max(0,A) > min(255,B), a wildcard never fails,
and untyped numeric tokens are never bounds-checked — any signed-16-bit
value range is accepted. -/
theorem typed_bounds_check_on_clamped_interval (fid : Nat) (content : String)
    (ft : FieldType) (N A B : Int)
    (hN1 : -32768 ≤ N) (hN2 : N ≤ 32767)
    (hA1 : -32768 ≤ A) (hA2 : A ≤ 32767)
    (hB1 : -32768 ≤ B) (hB2 : B ≤ 32767) :
    (parse_value_field fid content (exactCaps (some ft) N) =
      (if 0 ≤ N ∧ N ≤ 255 then .ok (mkTyped ft N.toNat N.toNat)
       else .error ⟨fid, content, .NumberOutOfRange 0 255⟩))
    ∧ (parse_value_field fid content (rangeCaps (some ft) A B) =
      (if max 0 A ≤ min 255 B then .ok (mkTyped ft (max 0 A).toNat (min 255 B).toNat)
       else .error ⟨fid, content, .NumberOutOfRange 0 255⟩))
    ∧ parse_value_field fid content (wildCaps (some ft)) = .ok (mkTyped ft 0 255)
    ∧ parse_value_field fid content (exactCaps none N) = .ok (.ValueField N N)
    ∧ parse_value_field fid content (rangeCaps none A B) = .ok (.ValueField A B)
    ∧ parse_value_field fid content (wildCaps none) = .ok (.ValueField (-32768) 32767) := by
  refine ⟨?_, ?_, ?_, ?_, ?_, ?_⟩
  · simp [parse_value_field, exactCaps, getMatchAsI16, matchToI16,
      exceptOkBind, Except.map, hN1, hN2]
    split_ifs <;> cases ft <;>
      (try simp only [mkTyped, Except.ok.injEq, Field.ChannelField.injEq,
        Field.VelocityField.injEq, Field.ControlNoField.injEq, and_true, true_and]) <;>
      first
        | rfl
        | omega
  · simp [parse_value_field, rangeCaps, getMatchAsI16, matchToI16,
      exceptOkBind, Except.map, hA1, hA2, hB1, hB2]
    split_ifs <;> cases ft <;>
      (try simp only [mkTyped, Except.ok.injEq, Field.ChannelField.injEq,
        Field.VelocityField.injEq, Field.ControlNoField.injEq, and_true, true_and]) <;>
      first
        | rfl
        | omega
  · cases ft <;> rfl
  · simp [parse_value_field, exactCaps, getMatchAsI16, matchToI16,
      exceptOkBind, Except.map, hN1, hN2]
  · simp [parse_value_field, rangeCaps, getMatchAsI16, matchToI16,
      exceptOkBind, Except.map, hA1, hA2, hB1, hB2]
  · rfl

/-- Witness for C6 at the claim's own examples `ch300` and `vel-5` (both
fail the 0–255 check). -/
theorem typed_bounds_check_witness :
    parse_value_field 1 "ch300" (exactCaps (some .ch) 300)
        = .error ⟨1, "ch300", .NumberOutOfRange 0 255⟩
      ∧ parse_value_field 1 "vel-5" (exactCaps (some .vel) (-5))
        = .error ⟨1, "vel-5", .NumberOutOfRange 0 255⟩
      ∧ fieldPatCaptures "ch300" = some (exactCaps (some .ch) 300)
      ∧ fieldPatCaptures "vel-5" = some (exactCaps (some .vel) (-5)) :=
  ⟨((typed_bounds_check_on_clamped_interval 1 "ch300" .ch 300 0 0 (by decide) (by decide)
      (by decide) (by decide) (by decide) (by decide)).1).trans (by rfl),
   ((typed_bounds_check_on_clamped_interval 1 "vel-5" .vel (-5) 0 0 (by decide) (by decide)
      (by decide) (by decide) (by decide) (by decide)).1).trans (by rfl),
   by decide, by decide⟩

/-! ## Claims C7 and C8 : the rule parser state machine and the config loader -/

def errOf {ε α : Type} : Except ε α → Option ε
  | .error e => some e
  | .ok _ => none

/-- The field errors of all left-hand-side tokens (those before the first
`=>`), in token order, each keyed by its 0-based token index. -/
def lhsErrors (compile : RegexCompile) (line : String) : List FieldParseError :=
  ((tokensOf line).takeWhile (fun p => p.2 ≠ FORWARD_SYMBOL)).filterMap
    (fun p => errOf (parse_field_lhs compile p.1 p.2))

/-- The tokens after the first `=>`, with any further `=>` removed. -/
def rhsTokens (line : String) : List String :=
  (((tokensOf line).dropWhile (fun p => p.2 ≠ FORWARD_SYMBOL)).map Prod.snd).filter
    (fun t => t ≠ FORWARD_SYMBOL)

def parseErrors : Except RuleParseError Rule → List FieldParseError
  | .ok _ => []
  | .error e => e.invalid_fields

def parseErrLineNo : Except RuleParseError Rule → Option Nat
  | .ok _ => none
  | .error e => some e.line_no

def actionsOf : Except RuleParseError Rule → List Action
  | .ok rule => rule.actions
  | .error _ => []

theorem runTokens_rhs (compile : RegexCompile) (ts : List (Nat × String)) :
    ∀ st : ParserSt, st.state = .rhs →
      (runTokens compile st ts).errors = st.errors
        ∧ (runTokens compile st ts).outputs =
            st.outputs ++ (ts.map Prod.snd).filter (fun t => t ≠ FORWARD_SYMBOL)
        ∧ (runTokens compile st ts).state = .rhs := by
  induction ts with
  | nil => intro st h; simp [runTokens, h]
  | cons t ts ih =>
    rintro ⟨cb, errs, outs, stt⟩ h
    cases h
    by_cases htok : t.2 = FORWARD_SYMBOL
    · have hr := ih ⟨cb, errs, outs, .rhs⟩ rfl
      simp [runTokens, parseStep, htok, hr.1, hr.2.1, hr.2.2]
    · have hr := ih ⟨cb, errs, outs ++ [t.2], .rhs⟩ rfl
      simp [runTokens, parseStep, htok, hr.1, hr.2.1, hr.2.2]

theorem runTokens_lhs (compile : RegexCompile) (ts : List (Nat × String)) :
    ∀ st : ParserSt, st.state = .lhs →
      (runTokens compile st ts).errors =
        st.errors ++ (ts.takeWhile (fun p => p.2 ≠ FORWARD_SYMBOL)).filterMap
          (fun p => errOf (parse_field_lhs compile p.1 p.2))
        ∧ (runTokens compile st ts).outputs =
            st.outputs ++ ((ts.dropWhile (fun p => p.2 ≠ FORWARD_SYMBOL)).map Prod.snd).filter
              (fun t => t ≠ FORWARD_SYMBOL) := by
  induction ts with
  | nil => intro st h; simp [runTokens]
  | cons t ts ih =>
    rintro ⟨cb, errs, outs, stt⟩ h
    cases h
    by_cases htok : t.2 = FORWARD_SYMBOL
    · have hr := runTokens_rhs compile ts ⟨cb, errs, outs, .rhs⟩ rfl
      simp [runTokens, parseStep, htok, hr.1, hr.2.1]
    · cases hp : parse_field_lhs compile t.1 t.2 with
      | ok f =>
        have hr := ih ⟨applyField cb f, errs, outs, .lhs⟩ rfl
        simp [runTokens, parseStep, htok, hp, hr.1, hr.2, errOf]
      | error e =>
        have hr := ih ⟨cb, errs ++ [e], outs, .lhs⟩ rfl
        simp [runTokens, parseStep, htok, hp, hr.1, hr.2, errOf]

theorem parse_errors_eq (compile : RegexCompile) (n : Nat) (line : String) :
    parseErrors (RuleParser.parse compile n line) = lhsErrors compile line := by
  have hr := (runTokens_lhs compile (tokensOf line) ⟨{}, [], [], .lhs⟩ rfl).1
  simp only [List.nil_append] at hr
  unfold RuleParser.parse lhsErrors
  simp only [hr, apply_ite parseErrors, parseErrors]
  split_ifs with hemp
  · exact hemp.symm
  · rfl

theorem parse_line_no_eq (compile : RegexCompile) (n : Nat) (line : String) :
    parseErrLineNo (RuleParser.parse compile n line) =
      (if lhsErrors compile line = [] then none else some n) := by
  have hr := (runTokens_lhs compile (tokensOf line) ⟨{}, [], [], .lhs⟩ rfl).1
  simp only [List.nil_append] at hr
  unfold RuleParser.parse lhsErrors
  simp only [hr, apply_ite parseErrLineNo, parseErrLineNo]
  split_ifs <;> rfl

/-! ## Claim C7 -/

/-- C7 counterexample: on `x => a => b` the second `=>` does NOT become an
output-port action; the parsed actions are exactly `ForwardTo "a"` and
`ForwardTo "b"` and no action forwards to the literal port `=>`. -/
theorem second_separator_counterexample :
    actionsOf (RuleParser.parse compileLiteral 0 "x => a => b")
        = [Action.ForwardTo "a", Action.ForwardTo "b"]
      ∧ Action.ForwardTo "=>" ∉
          actionsOf (RuleParser.parse compileLiteral 0 "x => a => b") := by
  refine ⟨by decide, by decide⟩

/-- C7 (amended): every occurrence of `=>` — the second and later ones
included — is consumed as a separator (leaving the parser in
right-hand-side state) and contributes nothing; the rule's actions are
exactly the non-`=>` tokens after the first `=>`, each as a `ForwardTo`. -/
theorem later_separators_are_consumed (compile : RegexCompile) (n : Nat)
    (line : String) :
    (RuleParser.parse compile n line).toOption.map Rule.actions =
      (if lhsErrors compile line = [] then
        some ((rhsTokens line).map Action.ForwardTo)
      else none) := by
  have hr := runTokens_lhs compile (tokensOf line) ⟨{}, [], [], .lhs⟩ rfl
  have hr1 := hr.1
  have hr2 := hr.2
  simp only [List.nil_append] at hr1 hr2
  unfold RuleParser.parse lhsErrors rhsTokens
  simp only [hr1, hr2,
    apply_ite (fun r : Except RuleParseError Rule => r.toOption.map Rule.actions),
    Except.toOption, Option.map_some, Option.map_none]
  split_ifs <;> rfl

/-! ## Claim C8 -/

/-- The outcome (rule or parse error) of every non-blank line, in line
order, with raw 0-based line numbers. -/
def outcomesOf (compile : RegexCompile) (ps : List (Nat × String)) :
    List (Except RuleParseError Rule) :=
  (ps.filter (fun p => trimStr p.2 ≠ "")).map
    (fun p => RuleParser.parse compile p.1 (trimStr p.2))

def lineOutcomes (compile : RegexCompile) (lines : List String) :
    List (Except RuleParseError Rule) :=
  outcomesOf compile lines.enum

theorem loadLines_eq (compile : RegexCompile) (ps : List (Nat × String)) :
    loadLines compile ps =
      ((outcomesOf compile ps).filterMap Except.toOption,
       (outcomesOf compile ps).filterMap errOf) := by
  induction ps with
  | nil => rfl
  | cons p ps ih =>
    obtain ⟨i, l⟩ := p
    by_cases hb : trimStr l = ""
    · simp [loadLines, outcomesOf, hb, ih]
    · cases hp : RuleParser.parse compile i (trimStr l) <;>
        simp_all [loadLines, outcomesOf, hb, hp, errOf, Except.toOption]

/-- C8: loading parses every non-blank line and aggregates: the load result
is `ok` with the rules of all non-blank lines iff no line failed, and
otherwise an aggregate error carrying exactly the per-line errors of every
failing line, in order (blank lines are skipped but keep their raw line
number through `enum`); per line, the aggregated error lists exactly the
field errors of all failing left-hand-side tokens, keyed by 0-based token
index, and carries the raw 0-based line number. -/
theorem load_aggregates_all_line_errors (compile : RegexCompile)
    (lines : List String) (i : Nat) (line : String) :
    (load_rules compile lines =
      (if (lineOutcomes compile lines).filterMap errOf = [] then
        Except.ok ((lineOutcomes compile lines).filterMap Except.toOption)
      else Except.error ⟨(lineOutcomes compile lines).filterMap errOf⟩))
    ∧ parseErrors (RuleParser.parse compile i line) = lhsErrors compile line
    ∧ parseErrLineNo (RuleParser.parse compile i line)
        = (if lhsErrors compile line = [] then none else some i) :=
  ⟨by simp [load_rules, loadLines_eq, lineOutcomes],
   parse_errors_eq compile i line,
   parse_line_no_eq compile i line⟩

end MidiRouter
